import Mathlib

/-!
Verification of the risk-categorization and scoring engine of `app.py`
(PredictRAM Risk Analytics dashboard).

The engine classifies per-stock metric values against a fixed threshold
table, accumulates per-category, per-stock and portfolio scores, and picks
a best stock.  This file gives a shallow embedding of that engine and
proves the specified properties about it.

Modelling choices (each mirrors the Python source):
* A Python float is modelled by `XVal`: a finite rational, `+inf`, `-inf`,
  or `nan`.  Comparisons follow IEEE semantics (`nan` compares false
  against everything), which is exactly what Python's `<` / `<=` do on
  floats.
* A dynamic cell value is modelled by `PyVal`: a number (`num`), a string
  that `float()` parses (`strNum`, carrying the parsed value), a string or
  other object that `float()` rejects with `ValueError`/`TypeError`
  (`strBad`), or Python `None` (`noneV`).  `pyFloat` abstracts the
  observable outcome of `float(value)` inside the `try` of
  `categorize_risk`.
* A stock record (a dataframe row) is an association list of column name
  to value; `srGet` mirrors `Series.get`, which returns `None` both for a
  missing label and for a present label holding `None`.
* The dataframe is an association list of symbol to record; `dfLookup`
  mirrors `df[df['Stock Symbol'] == s]` followed by `.iloc[0]`
  (first matching row, or absent).
-/

/-- Extended value of a Python float: finite rational, infinities, or NaN. -/
inductive XVal where
  | fin (q : ℚ)
  | pinf
  | ninf
  | nan
deriving DecidableEq, Repr

/-- Python `<` on floats: NaN compares false against everything. -/
def xlt : XVal → XVal → Bool
  | XVal.fin a, XVal.fin b => decide (a < b)
  | XVal.fin _, XVal.pinf => true
  | XVal.ninf, XVal.fin _ => true
  | XVal.ninf, XVal.pinf => true
  | _, _ => false

/-- Python `<=` on floats: NaN compares false against everything. -/
def xle : XVal → XVal → Bool
  | XVal.fin a, XVal.fin b => decide (a ≤ b)
  | XVal.fin _, XVal.pinf => true
  | XVal.ninf, XVal.fin _ => true
  | XVal.ninf, XVal.ninf => true
  | XVal.ninf, XVal.pinf => true
  | XVal.pinf, XVal.pinf => true
  | _, _ => false

/-- A dynamic Python value as it can appear in a dataframe cell. -/
inductive PyVal where
  | num (x : XVal)
  | strNum (x : XVal)
  | strBad (s : String)
  | noneV
deriving DecidableEq, Repr

/-- Observable outcome of `float(value)`: `some` parsed value, or `none`
when `float` raises `ValueError` (bad string) or `TypeError` (`None`). -/
def pyFloat : PyVal → Option XVal
  | PyVal.num x => some x
  | PyVal.strNum x => some x
  | PyVal.strBad _ => Option.none
  | PyVal.noneV => Option.none

/-- `categorize_risk(value, thresholds)` from `app.py` lines 36-48. -/
def categorize_risk (value : PyVal) (thresholds : XVal × XVal) : String :=
  match pyFloat value with
  | Option.none => "Data not available"
  | some v =>
    if xlt v thresholds.1 then "Good"
    else if xle thresholds.1 v && xle v thresholds.2 then "Neutral"
    else "Bad"

/-- `get_risk_color(risk_level)` from `app.py` lines 50-59. -/
def get_risk_color (risk_level : String) : String :=
  if risk_level = "Good" then "green"
  else if risk_level = "Neutral" then "yellow"
  else if risk_level = "Bad" then "red"
  else "black"

/-- The `risk_categories` table from `app.py` lines 15-34, in source
(insertion) order. -/
def risk_categories : List (String × List (String × (XVal × XVal))) :=
  [("Market Risk",
     [("Volatility", (XVal.fin (mkRat 1 10), XVal.fin (mkRat 2 10))),
      ("Beta", (XVal.fin (mkRat 5 10), XVal.fin (mkRat 15 10))),
      ("Correlation with ^NSEI", (XVal.fin (mkRat 7 10), XVal.fin 1))]),
   ("Financial Risk",
     [("debtToEquity", (XVal.fin (mkRat 5 10), XVal.fin (mkRat 15 10))),
      ("currentRatio", (XVal.fin (mkRat 15 10), XVal.fin 2)),
      ("quickRatio", (XVal.fin 1, XVal.fin (mkRat 15 10))),
      ("Profit Margins", (XVal.fin 20, XVal.fin 30)),
      ("returnOnAssets", (XVal.fin 10, XVal.fin 20)),
      ("returnOnEquity", (XVal.fin 15, XVal.fin 25))]),
   ("Liquidity Risk",
     [("Volume", (XVal.fin 1000000, XVal.pinf)),
      ("Average Volume", (XVal.fin 500000, XVal.fin 1000000)),
      ("marketCap", (XVal.fin 10000000000, XVal.pinf))])]

/-- A stock record: a dataframe row, as an association list from column
name to cell value (`app.py` line 77, `stock_info`). -/
def StockRecord : Type := List (String × PyVal)

instance : DecidableEq StockRecord := by
  unfold StockRecord
  exact inferInstance

/-- `stock_info.get(param)` (`app.py` line 86): pandas `Series.get`
returns `None` both when the label is absent and when the stored cell is
`None`. -/
def srGet (stock_info : StockRecord) (param : String) : PyVal :=
  match stock_info.find? (fun p => p.1 == param) with
  | some p => p.2
  | Option.none => PyVal.noneV

/-- The dataframe: rows in order, each a symbol with its record. -/
def Df : Type := List (String × StockRecord)

/-- `df[df['Stock Symbol'] == stock_symbol]` followed by the emptiness
test and `.iloc[0]` (`app.py` lines 71-77): the first row whose symbol
matches, or absence. -/
def dfLookup (df : Df) (stock_symbol : String) : Option StockRecord :=
  (List.find? (fun r => r.1 == stock_symbol) df).map (fun r => r.2)

/-- One entry of `results` (`app.py` lines 91-98 and 109-116). -/
structure EvalResult where
  stockSymbol : String
  category : String
  parameter : String
  value : PyVal
  riskLevel : String
  color : String
deriving DecidableEq, Repr

/-- `m[k] += d` on a Python dict whose key set already contains `k`
(used for `category_scores`, whose keys are fixed at initialization). -/
def bump (m : List (String × Int)) (k : String) (d : Int) : List (String × Int) :=
  m.map (fun p => if p.1 == k then (p.1, p.2 + d) else p)

/-- `m[k] = v` on a Python dict: overwrite in place if the key exists,
else append (insertion order preserved).  Used for `stock_scores`. -/
def dictSet (m : List (String × Int)) (k : String) (v : Int) : List (String × Int) :=
  if m.any (fun p => p.1 == k) then
    m.map (fun p => if p.1 == k then (k, v) else p)
  else m ++ [(k, v)]

/-- `sum(m.values())` for a dict of integers. -/
def sumVals (m : List (String × Int)) : Int :=
  (m.map (fun p => p.2)).sum

/-- Number of entries of the dict carrying key `k`. -/
def countKey (m : List (String × Int)) (k : String) : Nat :=
  (m.map (fun p => p.1)).count k

/-- Python dict lookup `m[k]` (first entry with key `k`). -/
def dictGet (m : List (String × Int)) (k : String) : Option Int :=
  (List.find? (fun p => p.1 == k) m).map (fun p => p.2)

/-- The mutable state threaded through the per-parameter loop of
`calculate_risk_parameters`: `results`, `category_scores`,
`total_portfolio_score` and the current stock's `total_stock_score`. -/
structure StockState where
  results : List EvalResult
  category_scores : List (String × Int)
  total_portfolio_score : Int
  total_stock_score : Int
deriving DecidableEq, Repr

/-- Body of the innermost loop of `calculate_risk_parameters`
(`app.py` lines 85-117): evaluate one parameter of one stock. -/
def stepParam (stock_symbol category : String) (stock_info : StockRecord)
    (st : StockState) (pt : String × (XVal × XVal)) : StockState :=
  let param := pt.1
  let thresholds := pt.2
  let value := srGet stock_info param
  if value ≠ PyVal.noneV then
    let risk_level := categorize_risk value thresholds
    let st1 : StockState :=
      { st with results := st.results ++
          [⟨stock_symbol, category, param, value, risk_level, get_risk_color risk_level⟩] }
    if risk_level = "Good" then
      { st1 with category_scores := bump st1.category_scores category 1,
                 total_portfolio_score := st1.total_portfolio_score + 1,
                 total_stock_score := st1.total_stock_score + 1 }
    else if risk_level = "Bad" then
      { st1 with category_scores := bump st1.category_scores category (-1),
                 total_portfolio_score := st1.total_portfolio_score - 1,
                 total_stock_score := st1.total_stock_score - 1 }
    else st1
  else
    { st with results := st.results ++
        [⟨stock_symbol, category, param,
          PyVal.strBad "Data not available", "Data not available", "black"⟩] }

/-- The per-category loop (`app.py` lines 84-85): fold the parameter loop
over one category's parameter list. -/
def stepCategory (stock_symbol : String) (stock_info : StockRecord)
    (st : StockState) (cat : String × List (String × (XVal × XVal))) : StockState :=
  cat.2.foldl (stepParam stock_symbol cat.1 stock_info) st

/-- Lines 80-117: process all categories of one stock, starting its
`total_stock_score` at 0. -/
def processStock (stock_symbol : String) (stock_info : StockRecord)
    (results : List EvalResult) (category_scores : List (String × Int))
    (total_portfolio_score : Int) : StockState :=
  risk_categories.foldl (stepCategory stock_symbol stock_info)
    ⟨results, category_scores, total_portfolio_score, 0⟩

/-- The four outputs of `calculate_risk_parameters`. -/
structure RunState where
  results : List EvalResult
  category_scores : List (String × Int)
  stock_scores : List (String × Int)
  total_portfolio_score : Int
deriving DecidableEq, Repr

/-- Body of the outer loop (`app.py` lines 69-119): resolve the record,
skip absent symbols, otherwise score the stock and store
`stock_scores[stock_symbol] = total_stock_score`. -/
def stepStock (df : Df) (st : RunState) (stock_symbol : String) : RunState :=
  match dfLookup df stock_symbol with
  | Option.none => st
  | some stock_info =>
    let s := processStock stock_symbol stock_info st.results st.category_scores
      st.total_portfolio_score
    ⟨s.results, s.category_scores,
     dictSet st.stock_scores stock_symbol s.total_stock_score,
     s.total_portfolio_score⟩

/-- `calculate_risk_parameters(stock_symbols)` (`app.py` lines 61-121),
with the module-level dataframe `df` passed explicitly. -/
def calculate_risk_parameters (df : Df) (stock_symbols : List String) : RunState :=
  stock_symbols.foldl (stepStock df)
    ⟨[], risk_categories.map (fun c => (c.1, 0)), [], 0⟩

/-- `max(stock_scores, key=stock_scores.get)` guarded by
`if stock_scores:` (`app.py` lines 157-158): Python `max` keeps the
current best and replaces it only on a strictly greater key value, so it
returns the first key achieving the maximum, in dict insertion order. -/
def best_stock (stock_scores : List (String × Int)) : Option String :=
  match stock_scores with
  | [] => Option.none
  | p :: rest =>
    some ((rest.foldl (fun b q => if b.2 < q.2 then q else b) p).1)

/-!  Derived characterizations of the engine, used to state and prove the
aggregate properties.  Each is proved equal to the engine's behaviour. -/

/-- Score contribution of one risk level (`app.py` lines 100-107). -/
def scoreDelta (risk_level : String) : Int :=
  if risk_level = "Good" then 1 else if risk_level = "Bad" then -1 else 0

/-- Score contribution of one parameter of one stock. -/
def paramDelta (stock_info : StockRecord) (pt : String × (XVal × XVal)) : Int :=
  let value := srGet stock_info pt.1
  if value = PyVal.noneV then 0 else scoreDelta (categorize_risk value pt.2)

/-- Score contribution of one category of one stock. -/
def catDelta (stock_info : StockRecord) (params : List (String × (XVal × XVal))) : Int :=
  (params.map (paramDelta stock_info)).sum

/-- Total per-occurrence score of one stock record. -/
def stockDelta (stock_info : StockRecord) : Int :=
  (risk_categories.map (fun c => catDelta stock_info c.2)).sum

/-- The result row emitted for one parameter of one stock. -/
def paramResult (stock_symbol category : String) (stock_info : StockRecord)
    (pt : String × (XVal × XVal)) : EvalResult :=
  let value := srGet stock_info pt.1
  if value = PyVal.noneV then
    ⟨stock_symbol, category, pt.1,
     PyVal.strBad "Data not available", "Data not available", "black"⟩
  else
    ⟨stock_symbol, category, pt.1, value, categorize_risk value pt.2,
     get_risk_color (categorize_risk value pt.2)⟩

/-- All result rows emitted for one occurrence of one stock. -/
def stockResults (stock_symbol : String) (stock_info : StockRecord) : List EvalResult :=
  risk_categories.flatMap (fun c => c.2.map (paramResult stock_symbol c.1 stock_info))

/-- Score contribution of one occurrence of a requested symbol
(0 when its record is absent). -/
def occDelta (df : Df) (stock_symbol : String) : Int :=
  match dfLookup df stock_symbol with
  | Option.none => 0
  | some stock_info => stockDelta stock_info

/-- Result rows contributed by one occurrence of a requested symbol. -/
def occResults (df : Df) (stock_symbol : String) : List EvalResult :=
  match dfLookup df stock_symbol with
  | Option.none => []
  | some stock_info => stockResults stock_symbol stock_info

/-- Score contribution of one occurrence of a requested symbol to one
category (0 when its record is absent). -/
def occCatDelta (df : Df) (params : List (String × (XVal × XVal)))
    (stock_symbol : String) : Int :=
  match dfLookup df stock_symbol with
  | Option.none => 0
  | some stock_info => catDelta stock_info params

/-- Net effect of one stock on `category_scores`. -/
def catBumps (stock_info : StockRecord) (m : List (String × Int)) : List (String × Int) :=
  risk_categories.foldl (fun m2 c => bump m2 c.1 (catDelta stock_info c.2)) m

/-- Keep the first occurrence of every element, drop later duplicates
(Python dict key order). -/
def dedupKeep : List String → List String
  | [] => []
  | s :: rest => s :: dedupKeep (rest.filter (fun t => !(t == s)))
termination_by l => l.length
decreasing_by
  simp only [List.length_cons]
  exact Nat.lt_succ_of_le (List.length_filter_le _ _)

/-! ### Concrete evaluations of the classifier and the engine -/

example : categorize_risk (PyVal.num (XVal.fin (mkRat 15 100))) (XVal.fin (mkRat 1 10), XVal.fin (mkRat 2 10)) = "Neutral" := by decide

example : categorize_risk (PyVal.num (XVal.fin 2)) (XVal.fin (mkRat 5 10), XVal.fin (mkRat 15 10)) = "Bad" := by decide

example : categorize_risk (PyVal.strBad "abc") (XVal.fin (mkRat 1 10), XVal.fin (mkRat 2 10)) = "Data not available" := by decide

example : categorize_risk (PyVal.num XVal.nan) (XVal.fin (mkRat 1 10), XVal.fin (mkRat 2 10)) = "Bad" := by decide

example : categorize_risk (PyVal.num XVal.pinf) (XVal.fin 10000000000, XVal.pinf) = "Neutral" := by decide

example :
    (calculate_risk_parameters
      [("A", [("Volatility", PyVal.num (XVal.fin (mkRat 5 100)))])]
      ["A"]).total_portfolio_score = 1 := by decide

example :
    (calculate_risk_parameters
      [("A", [("Volatility", PyVal.num (XVal.fin (mkRat 5 100)))])]
      ["A", "A"]).total_portfolio_score = 2 := by decide

example :
    (calculate_risk_parameters
      [("A", [("Volatility", PyVal.num (XVal.fin (mkRat 5 100)))])]
      ["A", "A"]).stock_scores = [("A", 1)] := by decide

example : best_stock [("A", 1), ("B", 3), ("C", 3)] = some "B" := by decide

/-! ### Basic dictionary lemmas -/

theorem bump_zero (m : List (String × Int)) (k : String) : bump m k 0 = m := by
  unfold bump
  induction m with
  | nil => rfl
  | cons p t ih =>
    simp only [List.map_cons, ih]
    by_cases h : p.1 == k <;> simp [h]

theorem bump_bump (m : List (String × Int)) (k : String) (a b : Int) :
    bump (bump m k a) k b = bump m k (a + b) := by
  unfold bump
  induction m with
  | nil => rfl
  | cons p t ih =>
    simp only [List.map_cons, ih]
    by_cases h : p.1 == k <;> simp [h, add_assoc]

theorem bump_keys (m : List (String × Int)) (k : String) (d : Int) :
    (bump m k d).map (fun p => p.1) = m.map (fun p => p.1) := by
  unfold bump
  induction m with
  | nil => rfl
  | cons p t ih =>
    simp only [List.map_cons, ih]
    by_cases h : p.1 == k <;> simp [h]

theorem countKey_bump (m : List (String × Int)) (k : String) (d : Int) (x : String) :
    countKey (bump m k d) x = countKey m x := by
  unfold countKey
  rw [bump_keys]

theorem sumVals_bump (m : List (String × Int)) (k : String) (d : Int) :
    sumVals (bump m k d) = sumVals m + d * (countKey m k : Int) := by
  unfold sumVals bump countKey
  induction m with
  | nil => simp
  | cons p t ih =>
    by_cases h : p.1 == k <;>
      simp only [List.map_cons, h, if_pos, if_neg, List.sum_cons, List.count_cons, ih] <;>
      simp [h] <;> push_cast <;> ring

/-! ### Characterization of the per-parameter step -/

theorem stepParam_eq (stock_symbol category : String) (stock_info : StockRecord)
    (st : StockState) (pt : String × (XVal × XVal)) :
    stepParam stock_symbol category stock_info st pt =
      ⟨st.results ++ [paramResult stock_symbol category stock_info pt],
       bump st.category_scores category (paramDelta stock_info pt),
       st.total_portfolio_score + paramDelta stock_info pt,
       st.total_stock_score + paramDelta stock_info pt⟩ := by
  unfold stepParam paramResult paramDelta scoreDelta
  by_cases h : srGet stock_info pt.1 = PyVal.noneV
  · simp [h, bump_zero]
  · by_cases hG : categorize_risk (srGet stock_info pt.1) pt.2 = "Good"
    · simp [h, hG]
    · by_cases hB : categorize_risk (srGet stock_info pt.1) pt.2 = "Bad"
      · simp [h, hG, hB, sub_eq_add_neg]
      · simp [h, hG, hB, bump_zero]

theorem foldl_stepParam (stock_symbol category : String) (stock_info : StockRecord)
    (params : List (String × (XVal × XVal))) (st : StockState) :
    params.foldl (stepParam stock_symbol category stock_info) st =
      ⟨st.results ++ params.map (paramResult stock_symbol category stock_info),
       bump st.category_scores category (catDelta stock_info params),
       st.total_portfolio_score + catDelta stock_info params,
       st.total_stock_score + catDelta stock_info params⟩ := by
  induction params generalizing st with
  | nil => simp [catDelta, bump_zero]
  | cons pt rest ih =>
    simp only [List.foldl_cons, stepParam_eq, ih, catDelta, List.map_cons, List.sum_cons]
    simp [bump_bump, add_assoc]

/-! ### Characterization of the per-category and per-stock folds -/

theorem foldl_stepCategory (stock_symbol : String) (stock_info : StockRecord)
    (cats : List (String × List (String × (XVal × XVal)))) (st : StockState) :
    cats.foldl (stepCategory stock_symbol stock_info) st =
      ⟨st.results ++
         cats.flatMap (fun c => c.2.map (paramResult stock_symbol c.1 stock_info)),
       cats.foldl (fun m c => bump m c.1 (catDelta stock_info c.2)) st.category_scores,
       st.total_portfolio_score + (cats.map (fun c => catDelta stock_info c.2)).sum,
       st.total_stock_score + (cats.map (fun c => catDelta stock_info c.2)).sum⟩ := by
  induction cats generalizing st with
  | nil => simp
  | cons c rest ih =>
    simp only [List.foldl_cons, stepCategory, foldl_stepParam, ih, List.flatMap_cons,
      List.map_cons, List.sum_cons]
    simp [List.append_assoc, add_assoc]

theorem processStock_eq (stock_symbol : String) (stock_info : StockRecord)
    (results : List EvalResult) (category_scores : List (String × Int))
    (total_portfolio_score : Int) :
    processStock stock_symbol stock_info results category_scores total_portfolio_score =
      ⟨results ++ stockResults stock_symbol stock_info,
       catBumps stock_info category_scores,
       total_portfolio_score + stockDelta stock_info,
       stockDelta stock_info⟩ := by
  unfold processStock catBumps stockResults stockDelta
  rw [foldl_stepCategory]
  simp

theorem foldl_bump_keys (stock_info : StockRecord)
    (cats : List (String × List (String × (XVal × XVal))))
    (m : List (String × Int)) :
    ((cats.foldl (fun m2 c => bump m2 c.1 (catDelta stock_info c.2)) m).map
        (fun p => p.1)) = m.map (fun p => p.1) := by
  induction cats generalizing m with
  | nil => rfl
  | cons c rest ih => simp only [List.foldl_cons, ih, bump_keys]

theorem catBumps_keys (stock_info : StockRecord) (m : List (String × Int)) :
    (catBumps stock_info m).map (fun p => p.1) = m.map (fun p => p.1) := by
  unfold catBumps
  exact foldl_bump_keys stock_info risk_categories m

theorem sumVals_foldl_bump (stock_info : StockRecord)
    (cats : List (String × List (String × (XVal × XVal))))
    (m : List (String × Int)) :
    sumVals (cats.foldl (fun m2 c => bump m2 c.1 (catDelta stock_info c.2)) m) =
      sumVals m +
        (cats.map (fun c => catDelta stock_info c.2 * (countKey m c.1 : Int))).sum := by
  induction cats generalizing m with
  | nil => simp
  | cons c rest ih =>
    simp only [List.foldl_cons, ih, sumVals_bump, List.map_cons, List.sum_cons,
      countKey_bump]
    ring

theorem sumVals_catBumps (stock_info : StockRecord) (m : List (String × Int))
    (h : m.map (fun p => p.1) = risk_categories.map (fun c => c.1)) :
    sumVals (catBumps stock_info m) = sumVals m + stockDelta stock_info := by
  have h1 : countKey m "Market Risk" = 1 := by
    unfold countKey; rw [h]; rfl
  have h2 : countKey m "Financial Risk" = 1 := by
    unfold countKey; rw [h]; rfl
  have h3 : countKey m "Liquidity Risk" = 1 := by
    unfold countKey; rw [h]; rfl
  unfold catBumps stockDelta
  rw [sumVals_foldl_bump]
  simp [risk_categories] at h1 h2 h3 ⊢
  rw [h1, h2, h3]
  ring

/-! ### Run-level characterization -/

theorem stepStock_none (df : Df) (st : RunState) (s : String)
    (h : dfLookup df s = Option.none) : stepStock df st s = st := by
  simp [stepStock, h]

theorem stepStock_some (df : Df) (st : RunState) (s : String) (info : StockRecord)
    (h : dfLookup df s = some info) :
    stepStock df st s =
      ⟨st.results ++ stockResults s info,
       catBumps info st.category_scores,
       dictSet st.stock_scores s (stockDelta info),
       st.total_portfolio_score + stockDelta info⟩ := by
  simp [stepStock, h, processStock_eq]

theorem foldl_stepStock_spec (df : Df) (syms : List String) (st : RunState)
    (hkeys : st.category_scores.map (fun p => p.1) = risk_categories.map (fun c => c.1)) :
    (syms.foldl (stepStock df) st).results = st.results ++ syms.flatMap (occResults df) ∧
    (syms.foldl (stepStock df) st).category_scores.map (fun p => p.1) =
      risk_categories.map (fun c => c.1) ∧
    sumVals (syms.foldl (stepStock df) st).category_scores =
      sumVals st.category_scores + (syms.map (occDelta df)).sum ∧
    (syms.foldl (stepStock df) st).total_portfolio_score =
      st.total_portfolio_score + (syms.map (occDelta df)).sum := by
  induction syms generalizing st with
  | nil => exact ⟨by simp, by simpa using hkeys, by simp, by simp⟩
  | cons s rest ih =>
    cases hdf : dfLookup df s with
    | none =>
      have hstep := stepStock_none df st s hdf
      have hrest := ih st hkeys
      simp only [List.foldl_cons, hstep, List.flatMap_cons, List.map_cons, List.sum_cons,
        occResults, occDelta, hdf]
      simpa using hrest
    | some info =>
      have hstep := stepStock_some df st s info hdf
      have hkeys2 : (catBumps info st.category_scores).map (fun p => p.1) =
          risk_categories.map (fun c => c.1) := by
        rw [catBumps_keys]; exact hkeys
      have hrest := ih ⟨st.results ++ stockResults s info,
        catBumps info st.category_scores,
        dictSet st.stock_scores s (stockDelta info),
        st.total_portfolio_score + stockDelta info⟩ hkeys2
      simp only [List.foldl_cons, hstep]
      rcases hrest with ⟨hr, hk, hcs, hp⟩
      refine ⟨?_, hk, ?_, ?_⟩
      · rw [hr]
        simp [occResults, hdf, List.append_assoc]
      · rw [hcs]
        simp only [sumVals_catBumps info st.category_scores hkeys]
        simp [occDelta, hdf]
        ring
      · rw [hp]
        simp [occDelta, hdf]
        ring

/-! ### Characterization of `stock_scores` -/

theorem countKey_append_single (m : List (String × Int)) (k : String) (v : Int)
    (t : String) :
    countKey (m ++ [(k, v)]) t = countKey m t + (if k == t then 1 else 0) := by
  unfold countKey
  simp [List.count_cons, List.count_append]

theorem countKey_eq_zero (m : List (String × Int)) (k : String) :
    countKey m k = 0 ↔ ∀ p ∈ m, (p.1 == k) = false := by
  unfold countKey
  rw [List.count_eq_zero]
  constructor
  · intro h p hp
    by_cases hpk : p.1 == k
    · exact absurd (List.mem_map.mpr ⟨p, hp, by simpa using hpk⟩) h
    · simpa using hpk
  · intro h hk
    rcases List.mem_map.mp hk with ⟨p, hp, hpk⟩
    have hf := h p hp
    rw [hpk] at hf
    simp at hf

theorem dictSet_append (m : List (String × Int)) (k : String) (v : Int)
    (h : countKey m k = 0) : dictSet m k v = m ++ [(k, v)] := by
  unfold dictSet
  have hany : m.any (fun p => p.1 == k) = false := by
    rw [List.any_eq_false]
    intro p hp
    simp [(countKey_eq_zero m k).mp h p hp]
  simp [hany]

theorem map_overwrite_id (m : List (String × Int)) (k : String) (v : Int)
    (hval : ∀ p ∈ m, p.1 = k → p.2 = v) :
    m.map (fun p => if p.1 == k then (k, v) else p) = m := by
  induction m with
  | nil => rfl
  | cons p t ih =>
    have hp : (if p.1 == k then (k, v) else p) = p := by
      by_cases hpk : p.1 == k
      · have hk : p.1 = k := by simpa using hpk
        have hv : p.2 = v := hval p (List.mem_cons_self p t) hk
        simp [hpk, ← hk, ← hv]
      · simp [hpk]
    simp only [List.map_cons, hp]
    rw [ih (fun q hq hqk => hval q (List.mem_cons_of_mem p hq) hqk)]

theorem dictSet_overwrite (m : List (String × Int)) (k : String) (v : Int)
    (hcnt : countKey m k ≠ 0) (hval : ∀ p ∈ m, p.1 = k → p.2 = v) :
    dictSet m k v = m := by
  unfold dictSet
  have hany : m.any (fun p => p.1 == k) = true := by
    by_contra hc
    rw [Bool.not_eq_true, List.any_eq_false] at hc
    exact hcnt ((countKey_eq_zero m k).mpr fun p hp => by simpa using hc p hp)
  rw [if_pos hany, map_overwrite_id m k v hval]

theorem dedupKeep_nil : dedupKeep [] = [] := by
  rw [dedupKeep]

theorem dedupKeep_cons (s : String) (rest : List String) :
    dedupKeep (s :: rest) = s :: dedupKeep (rest.filter (fun t => !(t == s))) := by
  rw [dedupKeep]

theorem foldl_stepStock_ss (df : Df) (syms : List String) (st : RunState)
    (hcons : ∀ p ∈ st.stock_scores,
      ∃ info, dfLookup df p.1 = some info ∧ p.2 = stockDelta info) :
    (syms.foldl (stepStock df) st).stock_scores =
      st.stock_scores ++
        (dedupKeep (syms.filter
            (fun t => (dfLookup df t).isSome && (countKey st.stock_scores t == 0)))).map
          (fun t => (t, occDelta df t)) := by
  induction syms generalizing st with
  | nil => simp [dedupKeep_nil]
  | cons s rest ih =>
    cases hdf : dfLookup df s with
    | none =>
      have hstep := stepStock_none df st s hdf
      have hpred : ((dfLookup df s).isSome && (countKey st.stock_scores s == 0)) = false := by
        simp [hdf]
      simp only [List.foldl_cons, hstep, List.filter_cons, hpred]
      simpa using ih st hcons
    | some info =>
      have hstep := stepStock_some df st s info hdf
      by_cases hcnt : countKey st.stock_scores s = 0
      · -- first occurrence of a symbol with a record: the entry is appended
        have hset : dictSet st.stock_scores s (stockDelta info) =
            st.stock_scores ++ [(s, stockDelta info)] := dictSet_append _ _ _ hcnt
        have hpred : ((dfLookup df s).isSome && (countKey st.stock_scores s == 0)) = true := by
          simp [hdf, hcnt]
        have hcons2 : ∀ p ∈ st.stock_scores ++ [(s, stockDelta info)],
            ∃ info2, dfLookup df p.1 = some info2 ∧ p.2 = stockDelta info2 := by
          intro p hp
          rcases List.mem_append.mp hp with hp | hp
          · exact hcons p hp
          · rcases List.mem_singleton.mp hp with rfl
            exact ⟨info, hdf, rfl⟩
        have hrest := ih ⟨st.results ++ stockResults s info,
          catBumps info st.category_scores,
          st.stock_scores ++ [(s, stockDelta info)],
          st.total_portfolio_score + stockDelta info⟩ hcons2
        have hfilter : rest.filter (fun t => (dfLookup df t).isSome &&
              (countKey (st.stock_scores ++ [(s, stockDelta info)]) t == 0)) =
            (rest.filter (fun t => (dfLookup df t).isSome &&
              (countKey st.stock_scores t == 0))).filter (fun t => !(t == s)) := by
          rw [List.filter_filter]
          apply List.filter_congr
          intro t _
          rw [countKey_append_single]
          by_cases hts : t = s
          · subst hts
            simp
          · have hst : (s == t) = false := by
              simp only [beq_eq_false_iff_ne, ne_eq]
              intro h
              exact hts h.symm
            have hts2 : (t == s) = false := by
              simp only [beq_eq_false_iff_ne, ne_eq]
              exact hts
            simp [hst, hts2]
        simp only [List.foldl_cons, hstep, hset] at hrest ⊢
        rw [hrest, hfilter]
        have hocc : occDelta df s = stockDelta info := by
          simp [occDelta, hdf]
        simp [List.filter_cons, hpred, dedupKeep_cons, hocc, List.append_assoc]
      · -- the symbol already has an entry: overwritten with the same value
        have hval : ∀ p ∈ st.stock_scores, p.1 = s → p.2 = stockDelta info := by
          intro p hp hpk
          rcases hcons p hp with ⟨info2, hdf2, hv⟩
          rw [hpk, hdf] at hdf2
          exact hv.trans (congrArg stockDelta (Option.some_inj.mp hdf2).symm)
        have hset : dictSet st.stock_scores s (stockDelta info) = st.stock_scores :=
          dictSet_overwrite _ _ _ hcnt hval
        have hpred : ((dfLookup df s).isSome && (countKey st.stock_scores s == 0)) = false := by
          simp [hdf, hcnt]
        have hrest := ih ⟨st.results ++ stockResults s info,
          catBumps info st.category_scores,
          st.stock_scores,
          st.total_portfolio_score + stockDelta info⟩ hcons
        simp only [List.foldl_cons, hstep, hset, List.filter_cons, hpred]
        simpa using hrest

theorem dedupKeep_spec : ∀ (n : Nat) (l : List String), l.length ≤ n →
    (∀ x, x ∈ dedupKeep l ↔ x ∈ l) ∧ (dedupKeep l).Nodup
  | _, [], _ => by simp [dedupKeep_nil]
  | 0, s :: rest, h => by simp at h
  | n+1, s :: rest, h => by
    have hlen : (rest.filter (fun t => !(t == s))).length ≤ n := by
      have hf := List.length_filter_le (fun t => !(t == s)) rest
      simp only [List.length_cons] at h
      omega
    have ih := dedupKeep_spec n (rest.filter (fun t => !(t == s))) hlen
    rw [dedupKeep_cons]
    constructor
    · intro x
      rw [List.mem_cons, ih.1 x, List.mem_filter]
      constructor
      · rintro (rfl | ⟨hx, _⟩)
        · exact List.mem_cons_self x rest
        · exact List.mem_cons_of_mem s hx
      · intro hx
        rcases List.mem_cons.mp hx with rfl | hx2
        · exact Or.inl rfl
        · by_cases hxs : x = s
          · exact Or.inl hxs
          · refine Or.inr ⟨hx2, ?_⟩
            simp [hxs]
    · rw [List.nodup_cons]
      refine ⟨?_, ih.2⟩
      intro hmem
      have hm := (ih.1 s).mp hmem
      rw [List.mem_filter] at hm
      simp at hm

theorem mem_dedupKeep (l : List String) (x : String) : x ∈ dedupKeep l ↔ x ∈ l :=
  (dedupKeep_spec l.length l le_rfl).1 x

theorem nodup_dedupKeep (l : List String) : (dedupKeep l).Nodup :=
  (dedupKeep_spec l.length l le_rfl).2

theorem dedupKeep_eq_self (l : List String) (h : l.Nodup) : dedupKeep l = l := by
  induction l with
  | nil => exact dedupKeep_nil
  | cons s rest ih =>
    rcases List.nodup_cons.mp h with ⟨hnotin, hnd⟩
    have hfilter : rest.filter (fun t => !(t == s)) = rest := by
      apply List.filter_eq_self.mpr
      intro u hu
      simp only [Bool.not_eq_eq_eq_not, Bool.not_true, beq_eq_false_iff_ne, ne_eq]
      intro h2
      subst h2
      exact hnotin hu
    rw [dedupKeep_cons, hfilter, ih hnd]

theorem sum_filter_ne (f : String → Int) (s : String) (l : List String) :
    (l.map f).sum =
      ((l.filter (fun t => !(t == s))).map f).sum + (l.count s : Int) * f s := by
  induction l with
  | nil => simp
  | cons t rest ih =>
    by_cases hts : t = s
    · subst hts
      simp only [List.filter_cons, List.count_cons_self, List.map_cons, List.sum_cons]
      simp [ih] <;> push_cast <;> ring
    · have h1 : (t == s) = false := by simp [hts]
      simp only [List.filter_cons, h1, List.count_cons, List.map_cons, List.sum_cons]
      simp [h1, ih] <;> push_cast <;> ring

theorem sum_dedupKeep (f : String → Int) (s : String) (l : List String)
    (h : ∀ t ∈ l, t ≠ s → l.count t ≤ 1) (hs : s ∈ l) :
    (l.map f).sum = ((dedupKeep l).map f).sum + ((l.count s : Int) - 1) * f s := by
  induction l with
  | nil => cases hs
  | cons t rest ih =>
    by_cases hts : t = s
    · subst hts
      have hnd : (rest.filter (fun u => !(u == t))).Nodup := by
        rw [List.nodup_iff_count_le_one]
        intro a
        by_cases ha : a ∈ rest.filter (fun u => !(u == t))
        · rcases List.mem_filter.mp ha with ⟨har, hat0⟩
          have hat : a ≠ t := by simpa using hat0
          have hle : (rest.filter (fun u => !(u == t))).count a ≤ rest.count a :=
            List.Sublist.count_le (List.filter_sublist _) a
          have h2 := h a (List.mem_cons_of_mem t har) hat
          rw [List.count_cons] at h2
          have hta : (t == a) = false := by
            simp only [beq_eq_false_iff_ne, ne_eq]
            exact fun he => hat he.symm
          rw [hta] at h2
          simp only [Bool.false_eq_true, if_neg, Nat.add_zero] at h2
          omega
        · rw [List.count_eq_zero_of_not_mem ha]
          omega
      rw [dedupKeep_cons, dedupKeep_eq_self _ hnd]
      simp only [List.map_cons, List.sum_cons, List.count_cons_self]
      rw [sum_filter_ne f t rest]
      push_cast
      ring
    · have hcnt1 := h t (List.mem_cons_self t rest) hts
      rw [List.count_cons_self] at hcnt1
      have htnotin : t ∉ rest := List.count_eq_zero.mp (by omega)
      have hfilter : rest.filter (fun u => !(u == t)) = rest := by
        apply List.filter_eq_self.mpr
        intro u hu
        simp only [Bool.not_eq_eq_eq_not, Bool.not_true, beq_eq_false_iff_ne, ne_eq]
        intro h2
        subst h2
        exact htnotin hu
      have hs2 : s ∈ rest := by
        rcases List.mem_cons.mp hs with h2 | h2
        · exact absurd h2.symm hts
        · exact h2
      have hrest : ∀ u ∈ rest, u ≠ s → rest.count u ≤ 1 := by
        intro u hu hus
        have h3 := h u (List.mem_cons_of_mem t hu) hus
        rw [List.count_cons] at h3
        omega
      have ihr := ih hrest hs2
      rw [dedupKeep_cons, hfilter]
      simp only [List.map_cons, List.sum_cons, ihr, List.count_cons]
      have hts2 : (t == s) = false := by simp [hts]
      rw [hts2]
      push_cast
      ring

/-! ### Output characterizations of a full run -/

theorem init_keys :
    ((risk_categories.map (fun c => (c.1, (0 : Int)))).map (fun p => p.1)) =
      risk_categories.map (fun c => c.1) := by
  simp

theorem run_results (df : Df) (syms : List String) :
    (calculate_risk_parameters df syms).results = syms.flatMap (occResults df) := by
  unfold calculate_risk_parameters
  have h := foldl_stepStock_spec df syms
    ⟨[], risk_categories.map (fun c => (c.1, 0)), [], 0⟩ init_keys
  simpa using h.1

theorem run_portfolio (df : Df) (syms : List String) :
    (calculate_risk_parameters df syms).total_portfolio_score =
      (syms.map (occDelta df)).sum := by
  unfold calculate_risk_parameters
  have h := foldl_stepStock_spec df syms
    ⟨[], risk_categories.map (fun c => (c.1, 0)), [], 0⟩ init_keys
  simpa using h.2.2.2

theorem run_category_sum (df : Df) (syms : List String) :
    sumVals (calculate_risk_parameters df syms).category_scores =
      (syms.map (occDelta df)).sum := by
  unfold calculate_risk_parameters
  have h := foldl_stepStock_spec df syms
    ⟨[], risk_categories.map (fun c => (c.1, 0)), [], 0⟩ init_keys
  have h0 : sumVals (risk_categories.map (fun c => (c.1, (0 : Int)))) = 0 := by
    simp [sumVals, risk_categories]
  simpa [h0] using h.2.2.1

theorem run_ss (df : Df) (syms : List String) :
    (calculate_risk_parameters df syms).stock_scores =
      (dedupKeep (syms.filter (fun t => (dfLookup df t).isSome))).map
        (fun t => (t, occDelta df t)) := by
  unfold calculate_risk_parameters
  have h := foldl_stepStock_ss df syms
    ⟨[], risk_categories.map (fun c => (c.1, 0)), [], 0⟩ (by intro p hp; cases hp)
  have hfilt : syms.filter (fun t => (dfLookup df t).isSome && (countKey [] t == 0)) =
      syms.filter (fun t => (dfLookup df t).isSome) := by
    apply List.filter_congr
    intro t _
    simp [countKey]
  simpa [hfilt] using h

theorem sum_occDelta_filter (df : Df) (syms : List String) :
    ((syms.filter (fun t => (dfLookup df t).isSome)).map (occDelta df)).sum =
      (syms.map (occDelta df)).sum := by
  induction syms with
  | nil => rfl
  | cons s rest ih =>
    cases hdf : dfLookup df s with
    | none => simp [List.filter_cons, hdf, occDelta, ih]
    | some info => simp [List.filter_cons, hdf, ih]

/-! ### Score bounds -/

theorem paramDelta_bound (stock_info : StockRecord) (pt : String × (XVal × XVal)) :
    -1 ≤ paramDelta stock_info pt ∧ paramDelta stock_info pt ≤ 1 := by
  unfold paramDelta scoreDelta
  simp only []
  split_ifs <;> omega

theorem catDelta_bound (stock_info : StockRecord) (params : List (String × (XVal × XVal))) :
    -(params.length : Int) ≤ catDelta stock_info params ∧
      catDelta stock_info params ≤ params.length := by
  unfold catDelta
  induction params with
  | nil => simp
  | cons pt rest ih =>
    obtain ⟨h1, h2⟩ := paramDelta_bound stock_info pt
    obtain ⟨i1, i2⟩ := ih
    simp only [List.map_cons, List.sum_cons, List.length_cons]
    push_cast
    constructor <;> linarith

theorem sum_catDelta_bound (stock_info : StockRecord)
    (cats : List (String × List (String × (XVal × XVal)))) :
    -((cats.map (fun c => (c.2.length : Int))).sum) ≤
        (cats.map (fun c => catDelta stock_info c.2)).sum ∧
      (cats.map (fun c => catDelta stock_info c.2)).sum ≤
        (cats.map (fun c => (c.2.length : Int))).sum := by
  induction cats with
  | nil => simp
  | cons c rest ih =>
    obtain ⟨c1, c2⟩ := catDelta_bound stock_info c.2
    obtain ⟨i1, i2⟩ := ih
    simp only [List.map_cons, List.sum_cons]
    constructor <;> linarith

theorem stockDelta_bound (stock_info : StockRecord) :
    -12 ≤ stockDelta stock_info ∧ stockDelta stock_info ≤ 12 := by
  have h := sum_catDelta_bound stock_info risk_categories
  have hlen : ((risk_categories.map (fun c => (c.2.length : Int))).sum) = 12 := by
    decide
  unfold stockDelta
  rw [hlen] at h
  exact h

theorem sumVals_bound (m : List (String × Int)) (b : Int)
    (h : ∀ p ∈ m, -b ≤ p.2 ∧ p.2 ≤ b) :
    -(b * m.length) ≤ sumVals m ∧ sumVals m ≤ b * m.length := by
  unfold sumVals
  induction m with
  | nil => simp
  | cons p t ih =>
    obtain ⟨h1, h2⟩ := h p (List.mem_cons_self p t)
    obtain ⟨i1, i2⟩ := ih (fun q hq => h q (List.mem_cons_of_mem p hq))
    simp only [List.map_cons, List.sum_cons, List.length_cons]
    push_cast
    have hmul : b * ((t.length : Int) + 1) = b * t.length + b := by ring
    constructor <;> linarith

/-! ### Claims -/

/-- C1, counterexample: the value `float('nan')` cannot be parsed as a
*finite* number, yet `categorize_risk` classifies it "Bad" (for the
Volatility thresholds), not "Data not available": `float(value)` succeeds
on NaN, and NaN fails every comparison, so the final `else` is taken. -/
theorem C1_counterexample :
    pyFloat (PyVal.num XVal.nan) = some XVal.nan ∧
    categorize_risk (PyVal.num XVal.nan)
      (XVal.fin (mkRat 1 10), XVal.fin (mkRat 2 10)) = "Bad" ∧
    categorize_risk (PyVal.num XVal.nan)
      (XVal.fin (mkRat 1 10), XVal.fin (mkRat 2 10)) ≠ "Data not available" := by
  refine ⟨rfl, ?_, ?_⟩
  · decide
  · decide

/-- C1, amended: for every input value on which numeric coercion fails
(`None`, or a string `float` rejects — including the empty and non-numeric
strings) and any thresholds, `categorize_risk` returns "Data not
available"; the guard precedes all comparisons, and the function is total
(never raises), always returning one of the four levels.  (Values that
coerce to non-finite floats — NaN, ±inf — proceed to the comparisons.) -/
theorem C1_unparseable_data_not_available (value : PyVal) (thresholds : XVal × XVal) :
    (pyFloat value = Option.none →
      categorize_risk value thresholds = "Data not available") ∧
    (categorize_risk value thresholds = "Good" ∨
     categorize_risk value thresholds = "Neutral" ∨
     categorize_risk value thresholds = "Bad" ∨
     categorize_risk value thresholds = "Data not available") := by
  cases value with
  | num x =>
    refine ⟨fun h => Option.noConfusion h, ?_⟩
    simp only [categorize_risk, pyFloat]
    split_ifs <;> simp
  | strNum x =>
    refine ⟨fun h => Option.noConfusion h, ?_⟩
    simp only [categorize_risk, pyFloat]
    split_ifs <;> simp
  | strBad s =>
    exact ⟨fun _ => rfl, Or.inr (Or.inr (Or.inr rfl))⟩
  | noneV =>
    exact ⟨fun _ => rfl, Or.inr (Or.inr (Or.inr rfl))⟩

/-- Closed witness for C1's amended theorem at `None` and at a bad string. -/
theorem C1_unparseable_data_not_available_witness :
    categorize_risk PyVal.noneV (XVal.fin (mkRat 1 10), XVal.fin (mkRat 2 10)) =
      "Data not available" ∧
    categorize_risk (PyVal.strBad "") (XVal.fin (mkRat 5 10), XVal.fin (mkRat 15 10)) =
      "Data not available" :=
  ⟨(C1_unparseable_data_not_available PyVal.noneV
      (XVal.fin (mkRat 1 10), XVal.fin (mkRat 2 10))).1 rfl,
   (C1_unparseable_data_not_available (PyVal.strBad "")
      (XVal.fin (mkRat 5 10), XVal.fin (mkRat 15 10))).1 rfl⟩

/-- C2: for every numeric value `v` and bounds `low ≤ high` (as the
engine compares them, so `high` may be `+inf` as in the Volume and
marketCap rules), `categorize_risk` returns exactly one of Good, Neutral,
Bad, with `v < low ↔ Good`, `low ≤ v ≤ high` (inclusive at both ends)
`↔ Neutral`, and `v > high ↔ Bad`. -/
theorem C2_classify_trichotomy (v : ℚ) (low high : XVal)
    (hlh : xle low high = true) :
    (categorize_risk (PyVal.num (XVal.fin v)) (low, high) = "Good" ∨
     categorize_risk (PyVal.num (XVal.fin v)) (low, high) = "Neutral" ∨
     categorize_risk (PyVal.num (XVal.fin v)) (low, high) = "Bad") ∧
    (categorize_risk (PyVal.num (XVal.fin v)) (low, high) = "Good" ↔
      xlt (XVal.fin v) low = true) ∧
    (categorize_risk (PyVal.num (XVal.fin v)) (low, high) = "Neutral" ↔
      (xle low (XVal.fin v) = true ∧ xle (XVal.fin v) high = true)) ∧
    (categorize_risk (PyVal.num (XVal.fin v)) (low, high) = "Bad" ↔
      xlt high (XVal.fin v) = true) := by
  rcases low with a | _ | _ | _ <;> rcases high with b | _ | _ | _ <;>
      simp only [xle, Bool.false_eq_true] at hlh <;>
    simp only [categorize_risk, pyFloat, xlt, xle, decide_eq_true_eq, Bool.and_eq_true,
      Bool.true_eq, Bool.false_eq_true] <;>
    (try simp only [decide_eq_true_eq] at hlh) <;>
    split_ifs with h1 h2 <;> simp_all <;> (try constructor) <;> intros <;> linarith

/-- Closed witness for C2: `0.15` with the Volatility band `[0.1, 0.2]`
classifies Neutral, and the boundary value `0.1` also classifies
Neutral. -/
theorem C2_classify_trichotomy_witness :
    categorize_risk (PyVal.num (XVal.fin (mkRat 3 20)))
      (XVal.fin (mkRat 1 10), XVal.fin (mkRat 2 10)) = "Neutral" ∧
    categorize_risk (PyVal.num (XVal.fin (mkRat 1 10)))
      (XVal.fin (mkRat 1 10), XVal.fin (mkRat 2 10)) = "Neutral" :=
  ⟨((C2_classify_trichotomy (mkRat 3 20) (XVal.fin (mkRat 1 10)) (XVal.fin (mkRat 2 10))
      (by decide)).2.2.1).mpr ⟨by decide, by decide⟩,
   ((C2_classify_trichotomy (mkRat 1 10) (XVal.fin (mkRat 1 10)) (XVal.fin (mkRat 2 10))
      (by decide)).2.2.1).mpr ⟨by decide, by decide⟩⟩

theorem sumVals_map_pair (l : List String) (g : String → Int) :
    sumVals (l.map (fun t => (t, g t))) = (l.map g).sum := by
  unfold sumVals
  rw [List.map_map]
  rfl

theorem run_portfolio_eq_sumVals (df : Df) (syms : List String) (hnd : syms.Nodup) :
    (calculate_risk_parameters df syms).total_portfolio_score =
      sumVals (calculate_risk_parameters df syms).stock_scores := by
  rw [run_portfolio, run_ss]
  have hfnd : (syms.filter (fun t => (dfLookup df t).isSome)).Nodup := hnd.filter _
  rw [dedupKeep_eq_self _ hfnd, sumVals_map_pair, sum_occDelta_filter]

/-- C3, counterexample: with the symbol list `["A", "A"]` (a duplicate)
over a source where A scores +1 per occurrence, the portfolio score is 2
but `stock_scores` holds the single entry `("A", 1)`, so the claimed
invariant `portfolioScore = sum(stockScores.values())` fails. -/
theorem C3_counterexample :
    (calculate_risk_parameters
        [("A", [("Volatility", PyVal.num (XVal.fin (mkRat 5 100)))])]
        ["A", "A"]).total_portfolio_score = 2 ∧
    (calculate_risk_parameters
        [("A", [("Volatility", PyVal.num (XVal.fin (mkRat 5 100)))])]
        ["A", "A"]).stock_scores = [("A", 1)] ∧
    (calculate_risk_parameters
        [("A", [("Volatility", PyVal.num (XVal.fin (mkRat 5 100)))])]
        ["A", "A"]).total_portfolio_score ≠
      sumVals (calculate_risk_parameters
        [("A", [("Volatility", PyVal.num (XVal.fin (mkRat 5 100)))])]
        ["A", "A"]).stock_scores := by
  refine ⟨?_, ?_, ?_⟩
  · decide
  · decide
  · decide

/-- C3 (amended): for every run over a *duplicate-free* symbol list,
`portfolioScore` equals the sum of the returned `stockScores`; and in
every run — duplicates included — the sum of the `categoryScores` values
equals `portfolioScore`. -/
theorem C3_score_invariants (df : Df) (syms : List String) :
    (syms.Nodup →
      (calculate_risk_parameters df syms).total_portfolio_score =
        sumVals (calculate_risk_parameters df syms).stock_scores) ∧
    sumVals (calculate_risk_parameters df syms).category_scores =
      (calculate_risk_parameters df syms).total_portfolio_score :=
  ⟨fun hnd => run_portfolio_eq_sumVals df syms hnd,
   (run_category_sum df syms).trans (run_portfolio df syms).symm⟩

/-- Closed witness for C3's amended theorem: the stock-sum invariant on a
duplicate-free two-symbol list (one record missing), and the
category-sum invariant on a list with a duplicate. -/
theorem C3_score_invariants_witness :
    (calculate_risk_parameters
        [("A", [("Volatility", PyVal.num (XVal.fin (mkRat 5 100)))])]
        ["A", "B"]).total_portfolio_score =
      sumVals (calculate_risk_parameters
        [("A", [("Volatility", PyVal.num (XVal.fin (mkRat 5 100)))])]
        ["A", "B"]).stock_scores ∧
    sumVals (calculate_risk_parameters
        [("A", [("Volatility", PyVal.num (XVal.fin (mkRat 5 100)))])]
        ["A", "A"]).category_scores =
      (calculate_risk_parameters
        [("A", [("Volatility", PyVal.num (XVal.fin (mkRat 5 100)))])]
        ["A", "A"]).total_portfolio_score :=
  ⟨(C3_score_invariants
      [("A", [("Volatility", PyVal.num (XVal.fin (mkRat 5 100)))])]
      ["A", "B"]).1 (by decide),
   (C3_score_invariants
      [("A", [("Volatility", PyVal.num (XVal.fin (mkRat 5 100)))])]
      ["A", "A"]).2⟩

/-- C4: in each (stock, parameter) evaluation, a Good classification adds
exactly +1 to the parameter's category score, +1 to the portfolio score
and +1 to the stock's score; a Bad classification adds exactly -1 to the
same three accumulators; a Neutral or Data-not-available outcome (and the
no-value branch) leaves all three unchanged. -/
theorem C4_score_deltas (stock_symbol category : String) (stock_info : StockRecord)
    (st : StockState) (param : String) (thresholds : XVal × XVal) :
    (¬ srGet stock_info param = PyVal.noneV ∧
        categorize_risk (srGet stock_info param) thresholds = "Good" →
      stepParam stock_symbol category stock_info st (param, thresholds) =
        ⟨st.results ++ [⟨stock_symbol, category, param, srGet stock_info param,
            "Good", "green"⟩],
         bump st.category_scores category 1,
         st.total_portfolio_score + 1,
         st.total_stock_score + 1⟩) ∧
    (¬ srGet stock_info param = PyVal.noneV ∧
        categorize_risk (srGet stock_info param) thresholds = "Bad" →
      stepParam stock_symbol category stock_info st (param, thresholds) =
        ⟨st.results ++ [⟨stock_symbol, category, param, srGet stock_info param,
            "Bad", "red"⟩],
         bump st.category_scores category (-1),
         st.total_portfolio_score - 1,
         st.total_stock_score - 1⟩) ∧
    ((srGet stock_info param = PyVal.noneV ∨
        categorize_risk (srGet stock_info param) thresholds = "Neutral" ∨
        categorize_risk (srGet stock_info param) thresholds = "Data not available") →
      (stepParam stock_symbol category stock_info st (param, thresholds)).category_scores =
          st.category_scores ∧
      (stepParam stock_symbol category stock_info st
          (param, thresholds)).total_portfolio_score = st.total_portfolio_score ∧
      (stepParam stock_symbol category stock_info st
          (param, thresholds)).total_stock_score = st.total_stock_score) := by
  refine ⟨?_, ?_, ?_⟩
  · rintro ⟨h1, h2⟩
    rw [stepParam_eq]
    have hd : paramDelta stock_info (param, thresholds) = 1 := by
      unfold paramDelta scoreDelta
      simp [h1, h2]
    have hr : paramResult stock_symbol category stock_info (param, thresholds) =
        ⟨stock_symbol, category, param, srGet stock_info param, "Good", "green"⟩ := by
      unfold paramResult get_risk_color
      simp [h1, h2]
    rw [hd, hr]
  · rintro ⟨h1, h2⟩
    rw [stepParam_eq]
    have hd : paramDelta stock_info (param, thresholds) = -1 := by
      unfold paramDelta scoreDelta
      simp [h1, h2]
    have hr : paramResult stock_symbol category stock_info (param, thresholds) =
        ⟨stock_symbol, category, param, srGet stock_info param, "Bad", "red"⟩ := by
      unfold paramResult get_risk_color
      simp [h1, h2]
    rw [hd, hr]
    simp [sub_eq_add_neg]
  · intro h
    have hd : paramDelta stock_info (param, thresholds) = 0 := by
      unfold paramDelta scoreDelta
      rcases h with h | h | h
      · simp [h]
      · by_cases hv : srGet stock_info param = PyVal.noneV
        · simp [hv]
        · simp [hv, h]
      · by_cases hv : srGet stock_info param = PyVal.noneV
        · simp [hv]
        · simp [hv, h]
    rw [stepParam_eq, hd]
    simp [bump_zero]

/-- Closed witness for C4 at a Good, a Bad and a Neutral input. -/
theorem C4_score_deltas_witness :
    stepParam "A" "Market Risk" [("Volatility", PyVal.num (XVal.fin (mkRat 5 100)))]
      ⟨[], [("Market Risk", 0), ("Financial Risk", 0), ("Liquidity Risk", 0)], 0, 0⟩
      ("Volatility", (XVal.fin (mkRat 1 10), XVal.fin (mkRat 2 10))) =
      ⟨[⟨"A", "Market Risk", "Volatility", PyVal.num (XVal.fin (mkRat 5 100)),
          "Good", "green"⟩],
       [("Market Risk", 1), ("Financial Risk", 0), ("Liquidity Risk", 0)], 1, 1⟩ ∧
    (stepParam "A" "Market Risk" [("Volatility", PyVal.num (XVal.fin (mkRat 15 100)))]
      ⟨[], [("Market Risk", 0), ("Financial Risk", 0), ("Liquidity Risk", 0)], 0, 0⟩
      ("Volatility", (XVal.fin (mkRat 1 10), XVal.fin (mkRat 2 10)))).total_portfolio_score =
      0 := by
  constructor
  · have h := (C4_score_deltas "A" "Market Risk"
      [("Volatility", PyVal.num (XVal.fin (mkRat 5 100)))]
      ⟨[], [("Market Risk", 0), ("Financial Risk", 0), ("Liquidity Risk", 0)], 0, 0⟩
      "Volatility" (XVal.fin (mkRat 1 10), XVal.fin (mkRat 2 10))).1
      ⟨by decide, by decide⟩
    rw [h]
    decide
  · have h := (C4_score_deltas "A" "Market Risk"
      [("Volatility", PyVal.num (XVal.fin (mkRat 15 100)))]
      ⟨[], [("Market Risk", 0), ("Financial Risk", 0), ("Liquidity Risk", 0)], 0, 0⟩
      "Volatility" (XVal.fin (mkRat 1 10), XVal.fin (mkRat 2 10))).2.2
      (Or.inr (Or.inl (by decide)))
    rw [h.2.1]

/-- C5, counterexample: a parameter that is *present* in the record's
attribute set but holds a null value is routed to the no-classifier
branch (`value is not None` fails), so the emitted result displays
"Data not available" instead of preserving the raw value, contradicting
the claim that every present-but-unparseable value goes through the
classifier with its raw value preserved. -/
theorem C5_counterexample :
    ("Volatility", PyVal.noneV) ∈
      ([("Volatility", PyVal.noneV)] : List (String × PyVal)) ∧
    pyFloat PyVal.noneV = Option.none ∧
    (calculate_risk_parameters [("S", [("Volatility", PyVal.noneV)])] ["S"]).results.head? =
      some ⟨"S", "Market Risk", "Volatility", PyVal.strBad "Data not available",
        "Data not available", "black"⟩ ∧
    ¬ (calculate_risk_parameters [("S", [("Volatility", PyVal.noneV)])]
        ["S"]).results.head? =
      some ⟨"S", "Market Risk", "Volatility", PyVal.noneV,
        "Data not available", "black"⟩ := by
  refine ⟨?_, ?_, ?_, ?_⟩
  · decide
  · rfl
  · decide
  · decide

/-- C5 (amended): when the looked-up value is null — the key being absent
from the record, or present with a null value — the engine emits the
fixed result (value shown "Data not available", risk level
"Data not available", color black) without invoking the classifier and
without score change; when the key is present with a non-null value that
fails numeric coercion, the classifier is invoked, the result keeps the
raw value, and its risk level is "Data not available" with color black
and no score change. -/
theorem C5_missing_vs_unparseable (stock_symbol category : String)
    (stock_info : StockRecord) (st : StockState) (param : String)
    (thresholds : XVal × XVal) :
    (srGet stock_info param = PyVal.noneV →
      stepParam stock_symbol category stock_info st (param, thresholds) =
        ⟨st.results ++ [⟨stock_symbol, category, param,
            PyVal.strBad "Data not available", "Data not available", "black"⟩],
         st.category_scores, st.total_portfolio_score, st.total_stock_score⟩) ∧
    (∀ s2, srGet stock_info param = PyVal.strBad s2 →
      categorize_risk (PyVal.strBad s2) thresholds = "Data not available" ∧
      stepParam stock_symbol category stock_info st (param, thresholds) =
        ⟨st.results ++ [⟨stock_symbol, category, param, PyVal.strBad s2,
            "Data not available", "black"⟩],
         st.category_scores, st.total_portfolio_score, st.total_stock_score⟩) := by
  constructor
  · intro h
    unfold stepParam
    simp [h]
  · intro s2 h
    have hc : categorize_risk (PyVal.strBad s2) thresholds = "Data not available" := rfl
    refine ⟨hc, ?_⟩
    rw [stepParam_eq]
    have hd : paramDelta stock_info (param, thresholds) = 0 := by
      unfold paramDelta scoreDelta
      simp [h, hc]
    have hr : paramResult stock_symbol category stock_info (param, thresholds) =
        ⟨stock_symbol, category, param, PyVal.strBad s2,
          "Data not available", "black"⟩ := by
      unfold paramResult get_risk_color
      simp [h, hc]
    rw [hd, hr, bump_zero]
    simp

/-- Closed witness for C5's amended theorem: an absent key, and a present
unparseable string. -/
theorem C5_missing_vs_unparseable_witness :
    stepParam "A" "Market Risk" [] ⟨[], [("Market Risk", 0)], 0, 0⟩
      ("Volatility", (XVal.fin (mkRat 1 10), XVal.fin (mkRat 2 10))) =
      ⟨[⟨"A", "Market Risk", "Volatility", PyVal.strBad "Data not available",
          "Data not available", "black"⟩],
       [("Market Risk", 0)], 0, 0⟩ ∧
    stepParam "A" "Market Risk" [("Volatility", PyVal.strBad "oops")]
      ⟨[], [("Market Risk", 0)], 0, 0⟩
      ("Volatility", (XVal.fin (mkRat 1 10), XVal.fin (mkRat 2 10))) =
      ⟨[⟨"A", "Market Risk", "Volatility", PyVal.strBad "oops",
          "Data not available", "black"⟩],
       [("Market Risk", 0)], 0, 0⟩ :=
  ⟨(C5_missing_vs_unparseable "A" "Market Risk" [] ⟨[], [("Market Risk", 0)], 0, 0⟩
      "Volatility" (XVal.fin (mkRat 1 10), XVal.fin (mkRat 2 10))).1 rfl,
   ((C5_missing_vs_unparseable "A" "Market Risk" [("Volatility", PyVal.strBad "oops")]
      ⟨[], [("Market Risk", 0)], 0, 0⟩
      "Volatility" (XVal.fin (mkRat 1 10), XVal.fin (mkRat 2 10))).2 "oops" rfl).2⟩

theorem foldl_max_spec (p : String × Int) (t : List (String × Int)) :
    p.2 ≤ (t.foldl (fun b q => if b.2 < q.2 then q else b) p).2 ∧
    (∀ q ∈ t, q.2 ≤ (t.foldl (fun b q => if b.2 < q.2 then q else b) p).2) ∧
    ((t.foldl (fun b q => if b.2 < q.2 then q else b) p) = p ∨
      ((t.foldl (fun b q => if b.2 < q.2 then q else b) p) ∈ t ∧
       p.2 < (t.foldl (fun b q => if b.2 < q.2 then q else b) p).2 ∧
       ∃ pre suf, t = pre ++ (t.foldl (fun b q => if b.2 < q.2 then q else b) p) :: suf ∧
         ∀ q ∈ pre, q.2 < (t.foldl (fun b q => if b.2 < q.2 then q else b) p).2)) := by
  induction t generalizing p with
  | nil => simp
  | cons q rest ih =>
    simp only [List.foldl_cons]
    by_cases hpq : p.2 < q.2
    · rw [if_pos hpq]
      obtain ⟨i1, i2, i3⟩ := ih q
      refine ⟨le_of_lt (lt_of_lt_of_le hpq i1), ?_, ?_⟩
      · intro r hr
        rcases List.mem_cons.mp hr with rfl | hr2
        · exact i1
        · exact i2 r hr2
      · rcases i3 with hb | ⟨hmem, hlt, pre, suf, hsplit, hpre⟩
        · refine Or.inr ⟨?_, ?_, [], rest, ?_, ?_⟩
          · rw [hb]; exact List.mem_cons_self q rest
          · rw [hb]; exact hpq
          · rw [hb, List.nil_append]
          · intro r hr; cases hr
        · refine Or.inr ⟨List.mem_cons_of_mem q hmem, lt_trans hpq hlt,
            q :: pre, suf, ?_, ?_⟩
          · rw [List.cons_append, ← hsplit]
          · intro r hr
            rcases List.mem_cons.mp hr with rfl | hr2
            · exact hlt
            · exact hpre r hr2
    · rw [if_neg hpq]
      obtain ⟨i1, i2, i3⟩ := ih p
      refine ⟨i1, ?_, ?_⟩
      · intro r hr
        rcases List.mem_cons.mp hr with rfl | hr2
        · exact le_trans (not_lt.mp hpq) i1
        · exact i2 r hr2
      · rcases i3 with hb | ⟨hmem, hlt, pre, suf, hsplit, hpre⟩
        · exact Or.inl hb
        · refine Or.inr ⟨List.mem_cons_of_mem q hmem, hlt,
            q :: pre, suf, ?_, ?_⟩
          · rw [List.cons_append, ← hsplit]
          · intro r hr
            rcases List.mem_cons.mp hr with rfl | hr2
            · exact lt_of_le_of_lt (not_lt.mp hpq) hlt
            · exact hpre r hr2

theorem find?_first_max (b : String × Int) (pre suf : List (String × Int))
    (hpre : ∀ q ∈ pre, q.2 < b.2) :
    List.find? (fun q => q.2 == b.2) (pre ++ b :: suf) = some b := by
  induction pre with
  | nil => simp
  | cons q t ih =>
    have hq : (q.2 == b.2) = false := by
      have hlt := hpre q (List.mem_cons_self q t)
      simp [Int.ne_of_lt hlt]
    rw [List.cons_append, List.find?_cons, hq]
    exact ih (fun r hr => hpre r (List.mem_cons_of_mem q hr))

/-- C6: on a non-empty `stock_scores` mapping, `best_stock` returns a
symbol whose score is the maximum of all scores — the first symbol
achieving it in insertion (scoring) order; on the empty mapping it
returns nothing. -/
theorem C6_best_stock (stock_scores : List (String × Int)) :
    (stock_scores = [] → best_stock stock_scores = Option.none) ∧
    (stock_scores ≠ [] →
      ∃ b : String × Int,
        best_stock stock_scores = some b.1 ∧ b ∈ stock_scores ∧
        (∀ q ∈ stock_scores, q.2 ≤ b.2) ∧
        List.find? (fun q => q.2 == b.2) stock_scores = some b) := by
  constructor
  · rintro rfl
    rfl
  · intro hne
    match stock_scores with
    | p :: rest =>
      refine ⟨rest.foldl (fun b q => if b.2 < q.2 then q else b) p, ?_, ?_, ?_, ?_⟩
      · rfl
      · obtain ⟨h1, h2, h3⟩ := foldl_max_spec p rest
        rcases h3 with hb | ⟨hmem, _, _⟩
        · rw [hb]; exact List.mem_cons_self p rest
        · exact List.mem_cons_of_mem p hmem
      · obtain ⟨h1, h2, h3⟩ := foldl_max_spec p rest
        intro q hq
        rcases List.mem_cons.mp hq with rfl | hq2
        · exact h1
        · exact h2 q hq2
      · obtain ⟨h1, h2, h3⟩ := foldl_max_spec p rest
        set b := rest.foldl (fun b q => if b.2 < q.2 then q else b) p with hbdef
        rcases h3 with hb | ⟨hmem, hlt, pre, suf, hsplit, hpre⟩
        · rw [hb]
          exact find?_first_max p [] rest (by intro r hr; cases hr)
        · rw [hsplit]
          exact find?_first_max b (p :: pre) suf (by
            intro r hr
            rcases List.mem_cons.mp hr with rfl | hr2
            · exact hlt
            · exact hpre r hr2)

/-- Closed witness for C6: the empty mapping yields nothing; on a
three-entry mapping with a tie for the maximum, the first maximal symbol
is returned. -/
theorem C6_best_stock_witness :
    best_stock [] = Option.none ∧
    best_stock [("A", 1), ("B", 3), ("C", 3)] = some "B" := by
  refine ⟨(C6_best_stock []).1 rfl, ?_⟩
  obtain ⟨b, hbs, hmem, hmax, hfind⟩ :=
    (C6_best_stock [("A", 1), ("B", 3), ("C", 3)]).2 (by decide)
  rw [hbs]
  simp only [List.mem_cons, List.not_mem_nil, or_false] at hmem
  rcases hmem with rfl | rfl | rfl
  · have h1 := hmax ("B", 3) (by simp)
    simp at h1
  · rfl
  · simp at hfind

/-- C7: a requested symbol whose record is absent from the source is
skipped entirely — the whole run produces exactly the outputs of the run
without that symbol (no results entry, no stock_scores entry, no score
change), and processing continues over the remaining symbols. -/
theorem C7_missing_record_skipped (df : Df) (pre post : List String) (s : String)
    (h : dfLookup df s = Option.none) :
    calculate_risk_parameters df (pre ++ s :: post) =
      calculate_risk_parameters df (pre ++ post) := by
  unfold calculate_risk_parameters
  rw [List.foldl_append, List.foldl_append, List.foldl_cons, stepStock_none df _ s h]

/-- Closed witness for C7: the unknown symbol Z between A and the end of
the list changes nothing. -/
theorem C7_missing_record_skipped_witness :
    calculate_risk_parameters
        [("A", [("Volatility", PyVal.num (XVal.fin (mkRat 5 100)))])] (["A"] ++ "Z" :: []) =
      calculate_risk_parameters
        [("A", [("Volatility", PyVal.num (XVal.fin (mkRat 5 100)))])] (["A"] ++ []) :=
  C7_missing_record_skipped
    [("A", [("Volatility", PyVal.num (XVal.fin (mkRat 5 100)))])] ["A"] [] "Z" rfl

/-- C8: the scoring run is a pure function of the symbol list and the
record source — two invocations on equal inputs yield equal results,
category scores, stock scores and portfolio score. -/
theorem C8_deterministic (df1 df2 : Df) (syms1 syms2 : List String)
    (hdf : df1 = df2) (hsyms : syms1 = syms2) :
    (calculate_risk_parameters df1 syms1).results =
      (calculate_risk_parameters df2 syms2).results ∧
    (calculate_risk_parameters df1 syms1).category_scores =
      (calculate_risk_parameters df2 syms2).category_scores ∧
    (calculate_risk_parameters df1 syms1).stock_scores =
      (calculate_risk_parameters df2 syms2).stock_scores ∧
    (calculate_risk_parameters df1 syms1).total_portfolio_score =
      (calculate_risk_parameters df2 syms2).total_portfolio_score := by
  subst hdf
  subst hsyms
  exact ⟨rfl, rfl, rfl, rfl⟩

/-- Closed witness for C8 at a concrete dataframe and symbol list. -/
theorem C8_deterministic_witness :
    (calculate_risk_parameters
        [("A", [("Beta", PyVal.num (XVal.fin 2))])] ["A"]).results =
      (calculate_risk_parameters
        [("A", [("Beta", PyVal.num (XVal.fin 2))])] ["A"]).results ∧
    (calculate_risk_parameters
        [("A", [("Beta", PyVal.num (XVal.fin 2))])] ["A"]).category_scores =
      (calculate_risk_parameters
        [("A", [("Beta", PyVal.num (XVal.fin 2))])] ["A"]).category_scores ∧
    (calculate_risk_parameters
        [("A", [("Beta", PyVal.num (XVal.fin 2))])] ["A"]).stock_scores =
      (calculate_risk_parameters
        [("A", [("Beta", PyVal.num (XVal.fin 2))])] ["A"]).stock_scores ∧
    (calculate_risk_parameters
        [("A", [("Beta", PyVal.num (XVal.fin 2))])] ["A"]).total_portfolio_score =
      (calculate_risk_parameters
        [("A", [("Beta", PyVal.num (XVal.fin 2))])] ["A"]).total_portfolio_score :=
  C8_deterministic [("A", [("Beta", PyVal.num (XVal.fin 2))])]
    [("A", [("Beta", PyVal.num (XVal.fin 2))])] ["A"] ["A"] rfl rfl

/-- C9: for a duplicate-free request list every value in `stock_scores`
lies in [-12, 12] (12 parameters, each contributing a delta in
{-1, 0, +1}), and the portfolio score lies in [-12 n, 12 n] where n is
the number of stocks actually scored. -/
theorem C9_score_bounds (df : Df) (syms : List String) (hnd : syms.Nodup) :
    (∀ p ∈ (calculate_risk_parameters df syms).stock_scores,
      -12 ≤ p.2 ∧ p.2 ≤ 12) ∧
    -(12 * ((calculate_risk_parameters df syms).stock_scores.length : Int)) ≤
      (calculate_risk_parameters df syms).total_portfolio_score ∧
    (calculate_risk_parameters df syms).total_portfolio_score ≤
      12 * ((calculate_risk_parameters df syms).stock_scores.length : Int) := by
  have hval : ∀ p ∈ (calculate_risk_parameters df syms).stock_scores,
      -12 ≤ p.2 ∧ p.2 ≤ 12 := by
    intro p hp
    rw [run_ss] at hp
    rcases List.mem_map.mp hp with ⟨t, ht, rfl⟩
    have htf := (List.mem_filter.mp ((mem_dedupKeep _ _).mp ht)).2
    cases hdf : dfLookup df t with
    | none => rw [hdf] at htf; simp at htf
    | some info =>
      simp only [occDelta, hdf]
      exact stockDelta_bound info
  have hb := sumVals_bound (calculate_risk_parameters df syms).stock_scores 12 hval
  rw [← run_portfolio_eq_sumVals df syms hnd] at hb
  exact ⟨hval, hb.1, hb.2⟩

/-- Closed witness for C9 on a concrete two-symbol run (one record
missing): the portfolio score is bounded by 12 per scored stock. -/
theorem C9_score_bounds_witness :
    -(12 * ((calculate_risk_parameters
        [("A", [("Volatility", PyVal.num (XVal.fin (mkRat 5 100)))])]
        ["A", "B"]).stock_scores.length : Int)) ≤
      (calculate_risk_parameters
        [("A", [("Volatility", PyVal.num (XVal.fin (mkRat 5 100)))])]
        ["A", "B"]).total_portfolio_score ∧
    (calculate_risk_parameters
        [("A", [("Volatility", PyVal.num (XVal.fin (mkRat 5 100)))])]
        ["A", "B"]).total_portfolio_score ≤
      12 * ((calculate_risk_parameters
        [("A", [("Volatility", PyVal.num (XVal.fin (mkRat 5 100)))])]
        ["A", "B"]).stock_scores.length : Int) :=
  ⟨(C9_score_bounds [("A", [("Volatility", PyVal.num (XVal.fin (mkRat 5 100)))])]
      ["A", "B"] (by decide)).2.1,
   (C9_score_bounds [("A", [("Volatility", PyVal.num (XVal.fin (mkRat 5 100)))])]
      ["A", "B"] (by decide)).2.2⟩

theorem paramResult_symbol (stock_symbol category : String) (stock_info : StockRecord)
    (pt : String × (XVal × XVal)) :
    (paramResult stock_symbol category stock_info pt).stockSymbol = stock_symbol := by
  by_cases h : srGet stock_info pt.1 = PyVal.noneV <;> simp [paramResult, h]

theorem stockResults_symbol (stock_symbol : String) (stock_info : StockRecord)
    (r : EvalResult) (hr : r ∈ stockResults stock_symbol stock_info) :
    r.stockSymbol = stock_symbol := by
  unfold stockResults at hr
  rcases List.mem_flatMap.mp hr with ⟨c, _, hr2⟩
  rcases List.mem_map.mp hr2 with ⟨pt, _, rfl⟩
  exact paramResult_symbol stock_symbol c.1 stock_info pt

theorem stockResults_length (stock_symbol : String) (stock_info : StockRecord) :
    (stockResults stock_symbol stock_info).length = 12 := by
  simp [stockResults, risk_categories]

theorem filter_occResults_count (df : Df) (syms : List String) (s : String)
    (info : StockRecord) (hdf : dfLookup df s = some info) :
    ((syms.flatMap (occResults df)).filter (fun r => r.stockSymbol == s)).length =
      12 * syms.count s := by
  induction syms with
  | nil => rfl
  | cons t rest ih =>
    rw [List.flatMap_cons, List.filter_append, List.length_append, ih, List.count_cons]
    by_cases hts : t = s
    · subst hts
      have hall : (occResults df t).filter (fun r => r.stockSymbol == t) =
          occResults df t := by
        apply List.filter_eq_self.mpr
        intro r hr
        unfold occResults at hr
        rw [hdf] at hr
        simp [stockResults_symbol t info r hr]
      rw [hall]
      unfold occResults
      rw [hdf, stockResults_length]
      have ht : (t == t) = true := by simp
      rw [ht]
      simp only [if_pos]
      omega
    · have hnone : (occResults df t).filter (fun r => r.stockSymbol == s) = [] := by
        rw [List.filter_eq_nil_iff]
        intro r hr
        unfold occResults at hr
        cases hdt : dfLookup df t with
        | none => rw [hdt] at hr; cases hr
        | some info2 =>
          rw [hdt] at hr
          have hsym := stockResults_symbol t info2 r hr
          simp [hsym, hts]
      rw [hnone]
      have hf : (t == s) = false := by simp [hts]
      rw [hf]
      simp

theorem countKey_map_pair (L : List String) (g : String → Int) (s : String) :
    countKey (L.map (fun t => (t, g t))) s = L.count s := by
  unfold countKey
  have h : (L.map (fun t => (t, g t))).map (fun p => p.1) = L := by
    induction L with
    | nil => rfl
    | cons a t ih => simp only [List.map_cons, ih]
  rw [h]

theorem dictGet_map_pair (L : List String) (g : String → Int) (s : String)
    (hs : s ∈ L) :
    dictGet (L.map (fun t => (t, g t))) s = some (g s) := by
  induction L with
  | nil => cases hs
  | cons t rest ih =>
    by_cases hts : t = s
    · subst hts
      simp [dictGet, List.find?_cons]
    · have hs2 : s ∈ rest := by
        rcases List.mem_cons.mp hs with h | h
        · exact absurd h.symm hts
        · exact h
      have hf : (t == s) = false := by simp [hts]
      simpa [dictGet, List.find?_cons, hf] using ih hs2

theorem dictGet_cons (x : String × Int) (l : List (String × Int)) (c : String) :
    dictGet (x :: l) c = if x.1 == c then some x.2 else dictGet l c := by
  unfold dictGet
  rw [List.find?_cons]
  by_cases h : (x.1 == c) = true
  · simp [h]
  · have h2 : (x.1 == c) = false := by simpa using h
    simp [h2]

theorem dictGet_bump (m : List (String × Int)) (k2 : String) (d : Int) (c : String) :
    dictGet (bump m k2 d) c =
      if c = k2 then (dictGet m c).map (fun x => x + d) else dictGet m c := by
  induction m with
  | nil => by_cases h : c = k2 <;> simp [dictGet, bump, h]
  | cons p t ih =>
    have hbump : bump (p :: t) k2 d =
        (if p.1 == k2 then (p.1, p.2 + d) else p) :: bump t k2 d := rfl
    rw [hbump]
    by_cases hp : (p.1 == k2) = true
    · rw [if_pos hp, dictGet_cons, dictGet_cons]
      by_cases hc : (p.1 == c) = true
      · have e1 : p.1 = k2 := by simpa using hp
        have h1 : c = k2 := by
          have e2 : p.1 = c := by simpa using hc
          rw [← e2, e1]
        simp [hc, h1, e1]
      · have hc2 : (p.1 == c) = false := by simpa using hc
        simp [hc2, ih]
    · have hp2 : (p.1 == k2) = false := by simpa using hp
      rw [if_neg (by simp [hp2] : ¬ (p.1 == k2) = true), dictGet_cons, dictGet_cons]
      by_cases hc : (p.1 == c) = true
      · have h1 : ¬ c = k2 := by
          intro he
          have e2 : p.1 = c := by simpa using hc
          rw [he] at e2
          exact hp (by simp [e2])
        simp [hc, h1]
      · have hc2 : (p.1 == c) = false := by simpa using hc
        simp [hc2, ih]

theorem catBumps_dictGet (stock_info : StockRecord) (m : List (String × Int))
    (category : String) (params : List (String × (XVal × XVal)))
    (hc : (category, params) ∈ risk_categories) :
    dictGet (catBumps stock_info m) category =
      (dictGet m category).map (fun x => x + catDelta stock_info params) := by
  unfold catBumps
  simp only [risk_categories, List.mem_cons, List.not_mem_nil, or_false] at hc
  simp only [risk_categories, List.foldl_cons, List.foldl_nil]
  rcases hc with h | h | h <;>
    rcases Prod.mk.injEq _ _ _ _ ▸ h with ⟨h1, h2⟩ <;>
    subst h1 <;> subst h2 <;>
    rw [dictGet_bump, dictGet_bump, dictGet_bump] <;>
    simp

theorem init_category_value (category : String) (params : List (String × (XVal × XVal)))
    (hc : (category, params) ∈ risk_categories) :
    dictGet (risk_categories.map (fun c => (c.1, (0 : Int)))) category = some 0 := by
  simp only [risk_categories, List.mem_cons, List.not_mem_nil, or_false] at hc
  rcases hc with h | h | h <;>
    rcases Prod.mk.injEq _ _ _ _ ▸ h with ⟨h1, h2⟩ <;>
    subst h1 <;> decide

theorem foldl_stepStock_catValue (df : Df) (syms : List String) (st : RunState)
    (category : String) (params : List (String × (XVal × XVal)))
    (hc : (category, params) ∈ risk_categories) :
    dictGet (syms.foldl (stepStock df) st).category_scores category =
      (dictGet st.category_scores category).map
        (fun x => x + (syms.map (occCatDelta df params)).sum) := by
  induction syms generalizing st with
  | nil =>
    cases h : dictGet st.category_scores category <;> simp [h]
  | cons t rest ih =>
    cases hdf : dfLookup df t with
    | none =>
      rw [List.foldl_cons, stepStock_none df st t hdf, ih st]
      cases h : dictGet st.category_scores category <;>
        simp [h, occCatDelta, hdf]
    | some info2 =>
      rw [List.foldl_cons, stepStock_some df st t info2 hdf]
      rw [ih ⟨st.results ++ stockResults t info2,
        catBumps info2 st.category_scores,
        dictSet st.stock_scores t (stockDelta info2),
        st.total_portfolio_score + stockDelta info2⟩]
      simp only [catBumps_dictGet info2 st.category_scores category params hc]
      cases h : dictGet st.category_scores category <;>
        simp [h, occCatDelta, hdf] <;> ring

theorem run_category_value (df : Df) (syms : List String)
    (category : String) (params : List (String × (XVal × XVal)))
    (hc : (category, params) ∈ risk_categories) :
    dictGet (calculate_risk_parameters df syms).category_scores category =
      some ((syms.map (occCatDelta df params)).sum) := by
  unfold calculate_risk_parameters
  rw [foldl_stepStock_catValue df syms _ category params hc]
  rw [show dictGet (RunState.mk [] (risk_categories.map (fun c => (c.1, 0))) [] 0).category_scores category = some 0 from init_category_value category params hc]
  simp

/-- C10 counterexample: the final divergence clause of the claim fails as
stated — A occurs twice with nonzero per-occurrence score (+1), yet the
portfolio score still equals the sum of `stock_scores` (both 0), because
B is also duplicated and its per-occurrence score (-1) cancels A's. -/
theorem C10_counterexample :
    (["A", "A", "B", "B"].count "A" = 2) ∧
    dfLookup
      [("A", [("Volatility", PyVal.num (XVal.fin (mkRat 5 100)))]),
       ("B", [("Beta", PyVal.num (XVal.fin 2))])] "A" =
      some [("Volatility", PyVal.num (XVal.fin (mkRat 5 100)))] ∧
    stockDelta [("Volatility", PyVal.num (XVal.fin (mkRat 5 100)))] ≠ 0 ∧
    (calculate_risk_parameters
        [("A", [("Volatility", PyVal.num (XVal.fin (mkRat 5 100)))]),
         ("B", [("Beta", PyVal.num (XVal.fin 2))])]
        ["A", "A", "B", "B"]).total_portfolio_score =
      sumVals (calculate_risk_parameters
        [("A", [("Volatility", PyVal.num (XVal.fin (mkRat 5 100)))]),
         ("B", [("Beta", PyVal.num (XVal.fin 2))])]
        ["A", "A", "B", "B"]).stock_scores := by
  refine ⟨?_, ?_, ?_, ?_⟩
  · decide
  · decide
  · decide
  · decide

/-- C10 (amended): if a symbol with a record occurs `k > 1` times, the
run evaluates its 12 parameters once per occurrence: its results appear
`12 k` times, its score delta enters the portfolio score `k` times and
each of its per-category deltas enters that category's score `k` times
(both relative to the run without its occurrences), while `stock_scores`
holds a single entry for it carrying the per-occurrence score; when
additionally no other symbol is duplicated, the portfolio score differs
from the sum of `stock_scores` whenever the per-occurrence score is
nonzero. -/
theorem C10_duplicates (df : Df) (syms : List String) (s : String)
    (info : StockRecord) (k : Nat)
    (hdf : dfLookup df s = some info)
    (hk : syms.count s = k) (hk2 : 1 < k) :
    ((calculate_risk_parameters df syms).results.filter
        (fun r => r.stockSymbol == s)).length = 12 * k ∧
    (calculate_risk_parameters df syms).total_portfolio_score =
      (calculate_risk_parameters df
          (syms.filter (fun t => !(t == s)))).total_portfolio_score +
        (k : Int) * stockDelta info ∧
    (∀ category params, (category, params) ∈ risk_categories →
      dictGet (calculate_risk_parameters df syms).category_scores category =
        (dictGet (calculate_risk_parameters df
            (syms.filter (fun t => !(t == s)))).category_scores category).map
          (fun x => x + (k : Int) * catDelta info params)) ∧
    countKey (calculate_risk_parameters df syms).stock_scores s = 1 ∧
    dictGet (calculate_risk_parameters df syms).stock_scores s =
      some (stockDelta info) ∧
    ((∀ t ∈ syms, t ≠ s → syms.count t ≤ 1) → stockDelta info ≠ 0 →
      (calculate_risk_parameters df syms).total_portfolio_score ≠
        sumVals (calculate_risk_parameters df syms).stock_scores) := by
  subst hk
  have hs_mem : s ∈ syms := by
    rw [← List.count_pos_iff]
    omega
  have hfound : ((dfLookup df s).isSome) = true := by rw [hdf]; rfl
  have hsl : s ∈ syms.filter (fun t => (dfLookup df t).isSome) :=
    List.mem_filter.mpr ⟨hs_mem, hfound⟩
  have hocc : occDelta df s = stockDelta info := by simp [occDelta, hdf]
  refine ⟨?_, ?_, ?_, ?_, ?_, ?_⟩
  · rw [run_results]
    exact filter_occResults_count df syms s info hdf
  · rw [run_portfolio, run_portfolio, sum_filter_ne (occDelta df) s syms, hocc]
  · intro category params hc
    rw [run_category_value df syms category params hc,
        run_category_value df (syms.filter (fun t => !(t == s))) category params hc,
        sum_filter_ne (occCatDelta df params) s syms]
    have hoc : occCatDelta df params s = catDelta info params := by
      simp [occCatDelta, hdf]
    rw [hoc]
    simp
  · rw [run_ss, countKey_map_pair]
    have hnd := nodup_dedupKeep (syms.filter (fun t => (dfLookup df t).isSome))
    have hmem : s ∈ dedupKeep (syms.filter (fun t => (dfLookup df t).isSome)) :=
      (mem_dedupKeep _ s).mpr hsl
    have hle := List.nodup_iff_count_le_one.mp hnd s
    have hge : 0 < (dedupKeep (syms.filter (fun t => (dfLookup df t).isSome))).count s :=
      List.count_pos_iff.mpr hmem
    omega
  · rw [run_ss, dictGet_map_pair _ _ _ ((mem_dedupKeep _ s).mpr hsl), hocc]
  · intro hothers hdelta
    have hlcount : (syms.filter (fun t => (dfLookup df t).isSome)).count s =
        syms.count s := List.count_filter hfound
    have hlothers : ∀ t ∈ syms.filter (fun t => (dfLookup df t).isSome), t ≠ s →
        (syms.filter (fun t => (dfLookup df t).isSome)).count t ≤ 1 := by
      intro t htl hts
      have h1 : (syms.filter (fun t => (dfLookup df t).isSome)).count t ≤
          syms.count t :=
        List.Sublist.count_le (List.filter_sublist _) t
      have h2 := hothers t (List.mem_filter.mp htl).1 hts
      omega
    have hss : sumVals (calculate_risk_parameters df syms).stock_scores =
        ((dedupKeep (syms.filter (fun t => (dfLookup df t).isSome))).map
          (occDelta df)).sum := by
      rw [run_ss, sumVals_map_pair]
    have hsum1 : ((syms.filter (fun t => (dfLookup df t).isSome)).map
        (occDelta df)).sum = (syms.map (occDelta df)).sum :=
      sum_occDelta_filter df syms
    have hdedup := sum_dedupKeep (occDelta df) s
      (syms.filter (fun t => (dfLookup df t).isSome)) hlothers hsl
    have hmain : (calculate_risk_parameters df syms).total_portfolio_score =
        sumVals (calculate_risk_parameters df syms).stock_scores +
          ((syms.count s : Int) - 1) * stockDelta info := by
      rw [run_portfolio, hss, ← hsum1, hdedup, hlcount, hocc]
    rw [hmain]
    intro hEq
    have h0 : ((syms.count s : Int) - 1) * stockDelta info = 0 := by linarith
    rcases mul_eq_zero.mp h0 with h1 | h1
    · have h2 : (syms.count s : Int) = 1 := by linarith
      have h3 : syms.count s = 1 := by exact_mod_cast h2
      omega
    · exact hdelta h1

/-- Closed witness for C10: A occurs twice and scores +1 per occurrence;
its 24 result rows, the doubled portfolio and Market-Risk contributions,
and the single stock_scores entry are all exhibited, and the portfolio
score differs from the stock_scores sum. -/
theorem C10_duplicates_witness :
    ((calculate_risk_parameters
        [("A", [("Volatility", PyVal.num (XVal.fin (mkRat 5 100)))])]
        ["A", "A"]).results.filter (fun r => r.stockSymbol == "A")).length = 12 * 2 ∧
    (calculate_risk_parameters
        [("A", [("Volatility", PyVal.num (XVal.fin (mkRat 5 100)))])]
        ["A", "A"]).total_portfolio_score =
      (calculate_risk_parameters
          [("A", [("Volatility", PyVal.num (XVal.fin (mkRat 5 100)))])]
          (["A", "A"].filter (fun t => !(t == "A")))).total_portfolio_score +
        (2 : Int) * stockDelta [("Volatility", PyVal.num (XVal.fin (mkRat 5 100)))] ∧
    dictGet (calculate_risk_parameters
        [("A", [("Volatility", PyVal.num (XVal.fin (mkRat 5 100)))])]
        ["A", "A"]).category_scores "Market Risk" =
      (dictGet (calculate_risk_parameters
          [("A", [("Volatility", PyVal.num (XVal.fin (mkRat 5 100)))])]
          (["A", "A"].filter (fun t => !(t == "A")))).category_scores "Market Risk").map
        (fun x => x + (2 : Int) *
          catDelta [("Volatility", PyVal.num (XVal.fin (mkRat 5 100)))]
            [("Volatility", (XVal.fin (mkRat 1 10), XVal.fin (mkRat 2 10))),
             ("Beta", (XVal.fin (mkRat 5 10), XVal.fin (mkRat 15 10))),
             ("Correlation with ^NSEI", (XVal.fin (mkRat 7 10), XVal.fin 1))]) ∧
    countKey (calculate_risk_parameters
        [("A", [("Volatility", PyVal.num (XVal.fin (mkRat 5 100)))])]
        ["A", "A"]).stock_scores "A" = 1 ∧
    dictGet (calculate_risk_parameters
        [("A", [("Volatility", PyVal.num (XVal.fin (mkRat 5 100)))])]
        ["A", "A"]).stock_scores "A" =
      some (stockDelta [("Volatility", PyVal.num (XVal.fin (mkRat 5 100)))]) ∧
    (calculate_risk_parameters
        [("A", [("Volatility", PyVal.num (XVal.fin (mkRat 5 100)))])]
        ["A", "A"]).total_portfolio_score ≠
      sumVals (calculate_risk_parameters
        [("A", [("Volatility", PyVal.num (XVal.fin (mkRat 5 100)))])]
        ["A", "A"]).stock_scores := by
  have h := C10_duplicates
    [("A", [("Volatility", PyVal.num (XVal.fin (mkRat 5 100)))])]
    ["A", "A"] "A" [("Volatility", PyVal.num (XVal.fin (mkRat 5 100)))] 2
    rfl (by decide) (by decide)
  exact ⟨h.1, h.2.1,
    h.2.2.1 "Market Risk"
      [("Volatility", (XVal.fin (mkRat 1 10), XVal.fin (mkRat 2 10))),
       ("Beta", (XVal.fin (mkRat 5 10), XVal.fin (mkRat 15 10))),
       ("Correlation with ^NSEI", (XVal.fin (mkRat 7 10), XVal.fin 1))]
      (by decide),
    h.2.2.2.1, h.2.2.2.2.1, h.2.2.2.2.2 (by decide) (by decide)⟩
